import Mathlib

/-!
Verification development for the image-download service (src/index.ts, AVIF
variant, and src/unnamed/part_000, PNG variant).  The two variants share one
design and differ only in the normalization transform, the file extension
and the content type; following the specification we embed the shared design
once, parameterized by a configuration record.

The image transform (the sharp library) is out of scope per the spec and is
modelled as an abstract parameter of type List Nat -> Option (List Nat):
none models a rejected promise (decode failure), some c the canonical bytes.
-/

namespace ImageStore

/-! ## Lowercase hex characters and rendering -/

/-- The character class of the source regex [0-9a-f] (src/index.ts line 68):
a decimal digit or a lowercase letter from a to f. -/
def isLowerHexChar (c : Char) : Bool :=
  (48 ≤ c.toNat && c.toNat ≤ 57) || (97 ≤ c.toNat && c.toNat ≤ 102)

/-- The lowercase hex digit for a nibble value. -/
def hexDigitChar : Nat → Char
  | 0 => '0' | 1 => '1' | 2 => '2' | 3 => '3' | 4 => '4' | 5 => '5' | 6 => '6' | 7 => '7'
  | 8 => '8' | 9 => '9' | 10 => 'a' | 11 => 'b' | 12 => 'c' | 13 => 'd' | 14 => 'e' | _ => 'f'

/-- One byte rendered as two lowercase hex digits, as in digest("hex")
(src/index.ts line 49): high nibble first. -/
def byteToHex (b : Nat) : List Char := [hexDigitChar (b / 16), hexDigitChar (b % 16)]

/-! ## SHA-256 (crypto.createHash("sha256"), src/index.ts line 49)

A direct embedding of FIPS 180-4 SHA-256 over byte lists, with 32-bit words
carried as Nat values below 2 to the 32.  Validated against the standard
test vectors further down. -/

/-- Two to the thirty-two, the word modulus. -/
def w32 : Nat := 4294967296

/-- Right rotation of a 32-bit word. -/
def rotr (n x : Nat) : Nat := ((x >>> n) ||| (x <<< (32 - n))) % w32

/-- The choice function of the compression rounds. -/
def shaCh (x y z : Nat) : Nat := (x &&& y) ^^^ ((x ^^^ 4294967295) &&& z)

/-- The majority function of the compression rounds. -/
def shaMaj (x y z : Nat) : Nat := (x &&& y) ^^^ (x &&& z) ^^^ (y &&& z)

/-- Upper-case sigma zero of FIPS 180-4. -/
def bigSigma0 (x : Nat) : Nat := rotr 2 x ^^^ rotr 13 x ^^^ rotr 22 x

/-- Upper-case sigma one of FIPS 180-4. -/
def bigSigma1 (x : Nat) : Nat := rotr 6 x ^^^ rotr 11 x ^^^ rotr 25 x

/-- Lower-case sigma zero of FIPS 180-4. -/
def smallSigma0 (x : Nat) : Nat := rotr 7 x ^^^ rotr 18 x ^^^ (x >>> 3)

/-- Lower-case sigma one of FIPS 180-4. -/
def smallSigma1 (x : Nat) : Nat := rotr 17 x ^^^ rotr 19 x ^^^ (x >>> 10)

/-- The 64 round constants of SHA-256 (FIPS 180-4 section 4.2.2), written
in decimal. -/
def shaK : List Nat :=
  [1116352408, 1899447441, 3049323471, 3921009573, 961987163, 1508970993,
   2453635748, 2870763221, 3624381080, 310598401, 607225278, 1426881987,
   1925078388, 2162078206, 2614888103, 3248222580, 3835390401, 4022224774,
   264347078, 604807628, 770255983, 1249150122, 1555081692, 1996064986,
   2554220882, 2821834349, 2952996808, 3210313671, 3336571891, 3584528711,
   113926993, 338241895, 666307205, 773529912, 1294757372, 1396182291,
   1695183700, 1986661051, 2177026350, 2456956037, 2730485921, 2820302411,
   3259730800, 3345764771, 3516065817, 3600352804, 4094571909, 275423344,
   430227734, 506948616, 659060556, 883997877, 958139571, 1322822218,
   1537002063, 1747873779, 1955562222, 2024104815, 2227730452, 2361852424,
   2428436474, 2756734187, 3204031479, 3329325298]

/-- The eight working variables of the SHA-256 state. -/
structure Hash8 where
  a : Nat
  b : Nat
  c : Nat
  d : Nat
  e : Nat
  f : Nat
  g : Nat
  h : Nat
deriving DecidableEq

/-- The initial SHA-256 hash value (FIPS 180-4 section 5.3.3), in decimal. -/
def initHash : Hash8 :=
  ⟨1779033703, 3144134277, 1013904242, 2773480762,
   1359893119, 2600822924, 528734635, 1541459225⟩

/-- Big-endian grouping of bytes into 32-bit words. -/
def toWords : List Nat → List Nat
  | b0 :: b1 :: b2 :: b3 :: rest => (((b0 * 256 + b1) * 256 + b2) * 256 + b3) :: toWords rest
  | _ => []

/-- Appends the next word of the message schedule. -/
def extendSchedule (ws : List Nat) : List Nat :=
  ws ++ [(smallSigma1 (ws.getD (ws.length - 2) 0) + ws.getD (ws.length - 7) 0 +
          smallSigma0 (ws.getD (ws.length - 15) 0) + ws.getD (ws.length - 16) 0) % w32]

/-- The 64-word message schedule of one 64-byte block. -/
def msgSchedule (block : List Nat) : List Nat :=
  (List.range 48).foldl (fun acc _ => extendSchedule acc) (toWords block)

/-- One compression round; the pair carries the round constant and the
schedule word. -/
def shaRound (s : Hash8) (kw : Nat × Nat) : Hash8 :=
  let t1 := (s.h + bigSigma1 s.e + shaCh s.e s.f s.g + kw.1 + kw.2) % w32
  let t2 := (bigSigma0 s.a + shaMaj s.a s.b s.c) % w32
  ⟨(t1 + t2) % w32, s.a, s.b, s.c, (s.d + t1) % w32, s.e, s.f, s.g⟩

/-- Compression of one 64-byte block into the running hash value. -/
def compressBlock (s : Hash8) (block : List Nat) : Hash8 :=
  let t := (shaK.zip (msgSchedule block)).foldl shaRound s
  ⟨(s.a + t.a) % w32, (s.b + t.b) % w32, (s.c + t.c) % w32, (s.d + t.d) % w32,
   (s.e + t.e) % w32, (s.f + t.f) % w32, (s.g + t.g) % w32, (s.h + t.h) % w32⟩

/-- A 32-bit word as four big-endian bytes. -/
def beBytes4 (n : Nat) : List Nat := [n / 16777216 % 256, n / 65536 % 256, n / 256 % 256, n % 256]

/-- A 64-bit length field as eight big-endian bytes. -/
def beBytes8 (n : Nat) : List Nat :=
  [n / 72057594037927936 % 256, n / 281474976710656 % 256, n / 1099511627776 % 256,
   n / 4294967296 % 256, n / 16777216 % 256, n / 65536 % 256, n / 256 % 256, n % 256]

/-- FIPS 180-4 padding: a 0x80 byte, zeros to 56 mod 64, then the bit length. -/
def padMessage (msg : List Nat) : List Nat :=
  msg ++ 128 :: (List.replicate ((119 - msg.length % 64) % 64) 0 ++ beBytes8 (8 * msg.length))

/-- Splits a byte list into successive 64-byte blocks; the fuel argument is
an upper bound on the number of blocks, kept structural so that the kernel
can evaluate it. -/
def chunk64Go : Nat → List Nat → List (List Nat)
  | 0, _ => []
  | _, [] => []
  | fuel + 1, a :: rest => (a :: rest).take 64 :: chunk64Go fuel ((a :: rest).drop 64)

/-- Splits a byte list into successive 64-byte blocks. -/
def chunk64 (l : List Nat) : List (List Nat) := chunk64Go l.length l

/-- The final hash value as 32 bytes. -/
def hashBytes (s : Hash8) : List Nat :=
  beBytes4 s.a ++ beBytes4 s.b ++ beBytes4 s.c ++ beBytes4 s.d ++
  beBytes4 s.e ++ beBytes4 s.f ++ beBytes4 s.g ++ beBytes4 s.h

/-- SHA-256 of a byte list, as 32 bytes. -/
def sha256 (msg : List Nat) : List Nat :=
  hashBytes ((chunk64 (padMessage msg)).foldl compressBlock initHash)

/-- The digest of the Content Addresser: SHA-256 rendered as lowercase hex,
crypto.createHash("sha256").update(buffer).digest("hex") at src/index.ts
line 49. -/
def sha256hex (msg : List Nat) : String :=
  String.mk ((sha256 msg).flatMap byteToHex)

/-! ## Base64 decoding (Buffer.from(base64Image, "base64"), src/index.ts line 35)

Node's base64 decoder maps the standard and URL-safe alphabets to sextet
values, skips every other character (padding included), and emits one byte
for every full group of eight decoded bits. -/

/-- The sextet value of one base64 alphabet character, none otherwise. -/
def base64Val (c : Char) : Option Nat :=
  if 65 ≤ c.toNat && c.toNat ≤ 90 then some (c.toNat - 65)
  else if 97 ≤ c.toNat && c.toNat ≤ 122 then some (c.toNat - 71)
  else if 48 ≤ c.toNat && c.toNat ≤ 57 then some (c.toNat + 4)
  else if c.toNat = 43 || c.toNat = 45 then some 62
  else if c.toNat = 47 || c.toNat = 95 then some 63
  else none

/-- Packs a list of sextets into bytes, big-endian within each group of
four sextets; a trailing group of two or three sextets yields one or two
bytes, a lone trailing sextet yields none. -/
def sextetsToBytes : List Nat → List Nat
  | s0 :: s1 :: s2 :: s3 :: rest =>
      (s0 * 4 + s1 / 16) :: ((s1 % 16) * 16 + s2 / 4) :: ((s2 % 4) * 64 + s3) :: sextetsToBytes rest
  | [s0, s1, s2] => [s0 * 4 + s1 / 16, (s1 % 16) * 16 + s2 / 4]
  | [s0, s1] => [s0 * 4 + s1 / 16]
  | _ => []

/-- The decoded bytes of a transport-level string, as Buffer.from with the
base64 encoding produces them. -/
def bufferFromBase64 (s : List Char) : List Nat := sextetsToBytes (s.filterMap base64Val)

/-! ## Data URI stripping (src/index.ts line 34) -/

/-- The literal character run of the anchored regex at src/index.ts line 34:
the only data URI header the handler removes. -/
def dataUriHeader : List Char := ("data:image/png;base64,").toList

/-- data.replace with the anchored regex of src/index.ts line 34: when the
string starts with the fixed header the match is removed, otherwise the
string is unchanged. -/
def stripDataUri (s : List Char) : List Char :=
  if dataUriHeader.isPrefixOf s then s.drop dataUriHeader.length else s

/-! ## The store, responses and configuration

The images directory is a flat map from filename to file content; Bun.write
overwrites, readFileSync returns the content or throws when the file is
absent. -/

/-- The observable state of the images directory: file content by filename. -/
abbrev Store : Type := List Char → Option (List Nat)

/-- The directory before any upload. -/
def emptyStore : Store := fun _ => none

/-- Bun.write (src/index.ts line 54): (over)writes one file. -/
def updateStore (st : Store) (k : List Char) (v : List Nat) : Store :=
  fun k2 => if k2 = k then some v else st k2

/-- The body of an HTTP response. -/
inductive RespBody where
  | text : String → RespBody
  | jsonHash : String → RespBody
  | blob : List Nat → RespBody
deriving DecidableEq

/-- An HTTP response: status, body, and the explicitly set content type
header (only the GET success path sets one in the source). -/
structure Resp where
  status : Nat
  body : RespBody
  contentType : Option String
deriving DecidableEq

/-- c.text("Missing image data", 400), src/index.ts line 30. -/
def missingDataResp : Resp := ⟨400, RespBody.text ("Missing image data"), none⟩

/-- c.text("Image file too large, ...", 400), src/index.ts line 40. -/
def tooLargeResp : Resp :=
  ⟨400, RespBody.text ("Image file too large, maximum allowed size is 10MB"), none⟩

/-- c.text("Invalid JSON payload or conversion error", 400), src/index.ts line 60. -/
def invalidPayloadResp : Resp :=
  ⟨400, RespBody.text ("Invalid JSON payload or conversion error"), none⟩

/-- c.text("Invalid image URL", 400), src/index.ts line 70. -/
def invalidUrlResp : Resp := ⟨400, RespBody.text ("Invalid image URL"), none⟩

/-- c.text("Image not found", 404), src/index.ts line 81. -/
def notFoundResp : Resp := ⟨404, RespBody.text ("Image not found"), none⟩

/-- c.json({ hash }), src/index.ts line 57. -/
def okHashResp (h : String) : Resp := ⟨200, RespBody.jsonHash h, none⟩

/-- new Response(imageBuffer, { status: 200, headers: ... }), src/index.ts
lines 76 to 79. -/
def imageResp (bytes : List Nat) (ct : String) : Resp := ⟨200, RespBody.blob bytes, some ct⟩

/-- The per-variant parameters: file extension and content type.  The
normalization transform is passed separately since it is an external
capability. -/
structure Config where
  ext : List Char
  contentType : String
deriving DecidableEq

/-- The AVIF variant, src/index.ts. -/
def avifConfig : Config := ⟨("avif").toList, "image/avif"⟩

/-- The PNG variant, src/unnamed/part_000. -/
def pngConfig : Config := ⟨("png").toList, "image/png"⟩

/-- The upload size ceiling, src/index.ts line 38. -/
def MAX_FILE_SIZE : Nat := 10 * 1024 * 1024

/-! ## The upload handler (app.post, src/index.ts lines 25 to 62) -/

/-- The outcome of reading the request body: malformed covers any body on
which await c.req.json() rejects, or whose data field is a non-string
truthy value (then data.replace throws); both land in the catch block.
Otherwise the optional data field is carried as a character list, none when
the field is absent or null. -/
inductive UploadBody where
  | malformed : UploadBody
  | json : Option (List Char) → UploadBody
deriving DecidableEq

/-- Lines 37 to 57 of src/index.ts, from the size check on the decoded
buffer onward.  The nrm parameter is the opaque sharp transform: none
models a rejected conversion promise, handled by the catch block at line 58. -/
def uploadAfterDecode (cfg : Config) (nrm : List Nat → Option (List Nat))
    (st : Store) (imageBuffer : List Nat) : Resp × Store :=
  if imageBuffer.length > MAX_FILE_SIZE then (tooLargeResp, st)
  else
    match nrm imageBuffer with
    | none => (invalidPayloadResp, st)
    | some outBuffer =>
        (okHashResp (sha256hex outBuffer),
         updateStore st ((sha256hex outBuffer).toList ++ '.' :: cfg.ext) outBuffer)

/-- The whole upload handler, src/index.ts lines 25 to 62.  A missing data
field and an empty data string are both falsy in the source's check at
line 29.  The store component of the result is the images directory after
the handler's write has completed. -/
def uploadStep (cfg : Config) (nrm : List Nat → Option (List Nat))
    (st : Store) (body : UploadBody) : Resp × Store :=
  match body with
  | UploadBody.malformed => (invalidPayloadResp, st)
  | UploadBody.json none => (missingDataResp, st)
  | UploadBody.json (some data) =>
      if data = [] then (missingDataResp, st)
      else uploadAfterDecode cfg nrm st (bufferFromBase64 (stripDataUri data))

/-! ## The retrieval handler (app.get, src/index.ts lines 65 to 83) -/

/-- The regex [0-9a-f]+ followed by a dot and the extension, after the first
character: consumes hex characters, then requires a dot and exactly the
extension to the end of the string. -/
def matchAfterHex (ext : List Char) : List Char → Bool
  | [] => false
  | c :: cs => if isLowerHexChar c then matchAfterHex ext cs else c == '.' && cs == ext

/-- file.match with the anchored regex of src/index.ts line 68: one or more
lowercase hex characters, a literal dot, then the extension, spanning the
whole string. -/
def matchFilename (ext : List Char) (s : List Char) : Bool :=
  match s with
  | [] => false
  | c :: cs => isLowerHexChar c && matchAfterHex ext cs

/-- The GET handler, src/index.ts lines 65 to 83.  The boolean records
whether readFileSync was attempted.  On a match, the captured hex group is
everything before the final dot and extension, and the handler rebuilds the
path from it; a missing file throws and is answered by the 404 branch. -/
def getStep (cfg : Config) (st : Store) (file : List Char) : Resp × Bool :=
  if matchFilename cfg.ext file = true then
    match st (file.take (file.length - cfg.ext.length - 1) ++ '.' :: cfg.ext) with
    | some imageBuffer => (imageResp imageBuffer cfg.contentType, true)
    | none => (notFoundResp, true)
  else (invalidUrlResp, false)

/-! ## The event trace of the upload success path

The data-level embedding above treats the write as completed state; the
trace below records the temporal structure of the source, in particular
which asynchronous operations the handler awaits. -/

/-- One step of the upload handler's success path.  The boolean on the
asynchronous steps records whether the source awaits the returned promise
before continuing. -/
inductive UploadEvent where
  | parseBody : Bool → UploadEvent
  | sharpConvert : Bool → UploadEvent
  | bunWrite : Bool → UploadEvent
  | respond : Nat → UploadEvent
deriving DecidableEq, BEq

/-- The success path of app.post in program order (src/index.ts lines 28,
44 to 46, 54, 57): await c.req.json(); await sharp(...).toBuffer();
Bun.write(filePath, buffer) with no await; return c.json({ hash }). -/
def uploadSuccessTrace : List UploadEvent :=
  [UploadEvent.parseBody true, UploadEvent.sharpConvert true,
   UploadEvent.bunWrite false, UploadEvent.respond 200]

/-- Holds of a trace exactly when every store write in it is awaited, which
is what guarantees the write has completed or failed before any later step,
in particular before the response is produced. -/
def writeAwaited : List UploadEvent → Bool
  | [] => true
  | UploadEvent.bunWrite aw :: rest => aw && writeAwaited rest
  | _ :: rest => writeAwaited rest

/-! ## Helper lemmas -/

/-- Every nibble renders to a lowercase hex character. -/
lemma hexDigitChar_hex (n : Nat) : isLowerHexChar (hexDigitChar n) = true := by
  match n with
  | 0 | 1 | 2 | 3 | 4 | 5 | 6 | 7 | 8 | 9 | 10 | 11 | 12 | 13 | 14 => decide
  | n + 15 =>
    show isLowerHexChar 'f' = true
    decide

/-- Hex rendering doubles the length. -/
lemma flatMap_byteToHex_length (l : List Nat) :
    (l.flatMap byteToHex).length = 2 * l.length := by
  induction l with
  | nil => rfl
  | cons a l ih =>
    simp only [List.flatMap_cons, List.length_append, List.length_cons, ih, byteToHex]
    simp only [List.length_cons, List.length_nil]
    omega

/-- Hex rendering emits only lowercase hex characters. -/
lemma flatMap_byteToHex_all (l : List Nat) :
    (l.flatMap byteToHex).all isLowerHexChar = true := by
  induction l with
  | nil => rfl
  | cons a l ih =>
    simp only [List.flatMap_cons, List.all_append, ih, Bool.and_true, byteToHex,
      List.all_cons, List.all_nil, hexDigitChar_hex, Bool.and_self]

/-- The raw digest always holds 32 bytes. -/
lemma sha256_length (b : List Nat) : (sha256 b).length = 32 := by
  simp [sha256, hashBytes, beBytes4]

/-- The character data of the hex digest string. -/
lemma sha256hex_toList (b : List Nat) :
    (sha256hex b).toList = (sha256 b).flatMap byteToHex := rfl

/-- The hex digest string has 64 characters. -/
lemma sha256hex_length (b : List Nat) : (sha256hex b).length = 64 := by
  show ((sha256 b).flatMap byteToHex).length = 64
  rw [flatMap_byteToHex_length, sha256_length]

/-- Every character of the hex digest is lowercase hex. -/
lemma sha256hex_all_hex (b : List Nat) :
    ((sha256hex b).toList.all isLowerHexChar) = true := by
  rw [sha256hex_toList]; exact flatMap_byteToHex_all _

/-- The hex digest is never the empty string. -/
lemma sha256hex_toList_ne (b : List Nat) : (sha256hex b).toList ≠ [] := by
  intro h
  have h64 : (sha256hex b).toList.length = 64 := by
    rw [sha256hex_toList, flatMap_byteToHex_length, sha256_length]
  rw [h] at h64
  simp at h64

/-- A list is a Boolean-level prefix of itself extended by anything. -/
lemma isPrefixOf_append_self (p s : List Char) : p.isPrefixOf (p ++ s) = true := by
  induction p with
  | nil => cases s <;> rfl
  | cons a p ih =>
    show (a == a && p.isPrefixOf (p ++ s)) = true
    simp [ih]

/-- Taking the length of the left part of an append returns it. -/
lemma take_len_append (p s : List Char) : (p ++ s).take p.length = p := by
  induction p with
  | nil => rfl
  | cons a p ih => simp [ih]

/-- Dropping the length of the left part of an append returns the right part. -/
lemma drop_len_append (p s : List Char) : (p ++ s).drop p.length = s := by
  induction p with
  | nil => rfl
  | cons a p ih => simp [ih]

/-- The tail matcher succeeds exactly on a hex run, a dot and the extension. -/
lemma matchAfterHex_iff (ext s : List Char) :
    matchAfterHex ext s = true ↔
      ∃ p, p.all isLowerHexChar = true ∧ s = p ++ '.' :: ext := by
  induction s with
  | nil =>
    constructor
    · intro h; simp [matchAfterHex] at h
    · rintro ⟨p, -, hp⟩; cases p <;> simp at hp
  | cons c cs ih =>
    by_cases hc : isLowerHexChar c = true
    · rw [show matchAfterHex ext (c :: cs) = matchAfterHex ext cs from by
        simp [matchAfterHex, hc]]
      constructor
      · intro h
        obtain ⟨p, hall, hp⟩ := ih.1 h
        exact ⟨c :: p, by simp [List.all_cons, hc, hall], by simp [hp]⟩
      · rintro ⟨p, hall, hp⟩
        cases p with
        | nil =>
          simp only [List.nil_append, List.cons.injEq] at hp
          rcases hp with ⟨rfl, rfl⟩
          exact absurd hc (by decide)
        | cons c2 p2 =>
          simp only [List.cons_append, List.cons.injEq] at hp
          rcases hp with ⟨rfl, hcs⟩
          simp only [List.all_cons, Bool.and_eq_true] at hall
          exact ih.2 ⟨p2, hall.2, hcs⟩
    · rw [show matchAfterHex ext (c :: cs) = (c == '.' && cs == ext) from by
        simp [matchAfterHex, hc]]
      constructor
      · intro h
        rw [Bool.and_eq_true, beq_iff_eq, beq_iff_eq] at h
        rcases h with ⟨rfl, rfl⟩
        exact ⟨[], rfl, rfl⟩
      · rintro ⟨p, hall, hp⟩
        cases p with
        | nil =>
          simp only [List.nil_append, List.cons.injEq] at hp
          rcases hp with ⟨rfl, rfl⟩
          simp
        | cons c2 p2 =>
          simp only [List.cons_append, List.cons.injEq] at hp
          rcases hp with ⟨rfl, -⟩
          simp only [List.all_cons, Bool.and_eq_true] at hall
          exact absurd hall.1 hc

/-- The filename matcher succeeds exactly on a nonempty hex run, a dot and
the extension: the Boolean regex test coincides with the declarative key
format of the specification. -/
lemma matchFilename_iff (ext s : List Char) :
    matchFilename ext s = true ↔
      ∃ p, p ≠ [] ∧ p.all isLowerHexChar = true ∧ s = p ++ '.' :: ext := by
  cases s with
  | nil =>
    constructor
    · intro h; simp [matchFilename] at h
    · rintro ⟨p, -, -, hp⟩; cases p <;> simp at hp
  | cons c cs =>
    rw [show matchFilename ext (c :: cs) = (isLowerHexChar c && matchAfterHex ext cs) from rfl,
        Bool.and_eq_true, matchAfterHex_iff]
    constructor
    · rintro ⟨hc, p, hall, rfl⟩
      exact ⟨c :: p, by simp, by simp [List.all_cons, hc, hall], rfl⟩
    · rintro ⟨p, hne, hall, hp⟩
      cases p with
      | nil => exact absurd rfl hne
      | cons c2 p2 =>
        simp only [List.cons_append, List.cons.injEq] at hp
        rcases hp with ⟨rfl, hcs⟩
        simp only [List.all_cons, Bool.and_eq_true] at hall
        exact ⟨hall.1, p2, hall.2, hcs⟩

/-- Reading back the key just written returns the written bytes. -/
lemma updateStore_same (st : Store) (k : List Char) (v : List Nat) :
    updateStore st k v k = some v := by simp [updateStore]

/-- Writing the same key and bytes twice leaves the store observably equal
to writing once. -/
lemma updateStore_idem (st : Store) (k : List Char) (v : List Nat) :
    updateStore (updateStore st k v) k v = updateStore st k v := by
  funext k2
  by_cases h : k2 = k <;> simp [updateStore, h]

/-- The upload handler on the success path: nonempty data, decoded buffer
within the ceiling, conversion succeeding. -/
lemma uploadStep_success (cfg : Config) (nrm : List Nat → Option (List Nat))
    (st : Store) (d : List Char) (canon : List Nat)
    (hd : ¬ d = [])
    (hsz : ¬ (bufferFromBase64 (stripDataUri d)).length > MAX_FILE_SIZE)
    (hc : nrm (bufferFromBase64 (stripDataUri d)) = some canon) :
    uploadStep cfg nrm st (UploadBody.json (some d)) =
      (okHashResp (sha256hex canon),
       updateStore st ((sha256hex canon).toList ++ '.' :: cfg.ext) canon) := by
  simp only [uploadStep]
  rw [if_neg hd]
  simp only [uploadAfterDecode]
  rw [if_neg hsz, hc]

/-- The GET handler on a well-formed key reduces to the store lookup of
that very key. -/
lemma getStep_valid_key (cfg : Config) (st : Store) (p : List Char)
    (hne : p ≠ []) (hhex : p.all isLowerHexChar = true) :
    getStep cfg st (p ++ '.' :: cfg.ext) =
      match st (p ++ '.' :: cfg.ext) with
      | some imageBuffer => (imageResp imageBuffer cfg.contentType, true)
      | none => (notFoundResp, true) := by
  have hm : matchFilename cfg.ext (p ++ '.' :: cfg.ext) = true :=
    (matchFilename_iff cfg.ext _).2 ⟨p, hne, hhex, rfl⟩
  have hlen : (p ++ '.' :: cfg.ext).length - cfg.ext.length - 1 = p.length := by
    simp only [List.length_append, List.length_cons]
    omega
  simp only [getStep]
  rw [if_pos hm, hlen, take_len_append]

/-- Validation of the SHA-256 embedding: the standard empty-message vector. -/
theorem sha256hex_empty_vector :
    sha256hex [] = "e3b0c44298fc1c149afbf4c8996fb92427ae41e4649b934ca495991b7852b855" := by
  decide

/-- Validation of the SHA-256 embedding: the standard three-byte vector. -/
theorem sha256hex_abc_vector :
    sha256hex [97, 98, 99] = "ba7816bf8f01cfea414140de5dae2223b00361a396177a9cb410ff61f20015ad" := by
  decide

/-! ## Claim theorems -/

/-- Claim C1: the specification demands that the write of the canonical
bytes complete or fail before the HTTP response carrying the digest is
produced, with no fire-and-forget writes.  The source awaits body parsing
and the conversion but issues Bun.write without awaiting the returned
promise (src/index.ts line 54) and returns the response at once: the
success trace carries an unawaited write followed by the 200 response, so
the guarantee the claim states is absent from the code. -/
theorem upload_write_not_awaited :
    writeAwaited uploadSuccessTrace = false ∧
    uploadSuccessTrace.contains (UploadEvent.respond 200) = true ∧
    uploadSuccessTrace =
      [UploadEvent.parseBody true, UploadEvent.sharpConvert true,
       UploadEvent.bunWrite false, UploadEvent.respond 200] :=
  ⟨rfl, by decide, rfl⟩

/-- Claim C2: a decoded payload of exactly MAX_FILE_SIZE bytes passes the
size check, and processing continues to canonicalization, whose outcome
alone decides the response; a decoded payload of MAX_FILE_SIZE + 1 bytes or
more is answered by the 400 too-large response with the store untouched,
regardless of what the transform would say about the content. -/
theorem upload_size_boundary (cfg : Config) (nrm : List Nat → Option (List Nat))
    (st : Store) (buf : List Nat) :
    (buf.length = MAX_FILE_SIZE →
      uploadAfterDecode cfg nrm st buf =
        match nrm buf with
        | none => (invalidPayloadResp, st)
        | some outBuffer =>
            (okHashResp (sha256hex outBuffer),
             updateStore st ((sha256hex outBuffer).toList ++ '.' :: cfg.ext) outBuffer)) ∧
    (MAX_FILE_SIZE < buf.length →
      uploadAfterDecode cfg nrm st buf = (tooLargeResp, st)) := by
  constructor
  · intro h
    simp only [uploadAfterDecode]
    rw [if_neg (by omega)]
  · intro h
    simp only [uploadAfterDecode]
    rw [if_pos (by omega)]

/-- Witness for claim C2, at a payload of exactly the ceiling and one a
byte over it. -/
theorem upload_size_boundary_check :
    ((List.replicate MAX_FILE_SIZE 0).length = MAX_FILE_SIZE ∧
      uploadAfterDecode avifConfig (fun _ => none) emptyStore (List.replicate MAX_FILE_SIZE 0) =
        (invalidPayloadResp, emptyStore)) ∧
    (MAX_FILE_SIZE < (List.replicate (MAX_FILE_SIZE + 1) 0).length ∧
      uploadAfterDecode avifConfig (fun _ => none) emptyStore (List.replicate (MAX_FILE_SIZE + 1) 0) =
        (tooLargeResp, emptyStore)) := by
  constructor
  · constructor
    · simp
    · exact (upload_size_boundary avifConfig (fun _ => none) emptyStore _).1 (by simp)
  · constructor
    · simp
    · exact (upload_size_boundary avifConfig (fun _ => none) emptyStore _).2 (by simp)

/-- Claim C3: the key validator accepts exactly the strings made of one or
more lowercase hex characters, a literal dot and the server's fixed
extension; every other string is answered with the 400 invalid-URL response
and no filesystem read is attempted for it. -/
theorem key_validation_iff (cfg : Config) (st : Store) (s : List Char) :
    (matchFilename cfg.ext s = true ↔
      ∃ p, p ≠ [] ∧ p.all isLowerHexChar = true ∧ s = p ++ '.' :: cfg.ext) ∧
    (matchFilename cfg.ext s = false → getStep cfg st s = (invalidUrlResp, false)) := by
  refine ⟨matchFilename_iff cfg.ext s, ?_⟩
  intro h
  simp only [getStep]
  rw [if_neg (by simp [h])]

/-- Witness for claim C3, at a traversal-shaped filename. -/
theorem key_validation_iff_check :
    matchFilename avifConfig.ext (("../etc.avif").toList) = false ∧
    getStep avifConfig emptyStore (("../etc.avif").toList) = (invalidUrlResp, false) :=
  ⟨by decide, (key_validation_iff avifConfig emptyStore _).2 (by decide)⟩

/-- Claim C4: the digest is a total pure function of the byte sequence,
defined for every byte list including the empty one, and renders the
32-byte SHA-256 value as a 64-character string over the lowercase hex
alphabet.  Purity and totality are inherent: sha256hex is a plain total
function of the bytes alone. -/
theorem digest_total_lowercase_hex (b : List Nat) :
    (sha256 b).length = 32 ∧
    (sha256hex b).length = 64 ∧
    ((sha256hex b).toList.all isLowerHexChar) = true :=
  ⟨sha256_length b, sha256hex_length b, sha256hex_all_hex b⟩

/-- Claim C5 fails as stated: the source strips only the exact header
data:image/png;base64, (src/index.ts line 34); a data-URI prefix with any
other mime type, here image/jpeg, is left in place. -/
theorem strip_other_mime_not_stripped :
    stripDataUri (("data:image/jpeg;base64,QQ==").toList) ≠ ("QQ==").toList := by
  decide

/-- Claim C5 (amended): when the data field is wrapped in the exact header
data:image/png;base64, the header is removed from the transport-level
string before base64 decoding, so the decoded payload equals that of the
bare base64 remainder. -/
theorem strip_png_header (s : List Char) :
    stripDataUri (dataUriHeader ++ s) = s ∧
    bufferFromBase64 (stripDataUri (dataUriHeader ++ s)) = bufferFromBase64 s := by
  have h : stripDataUri (dataUriHeader ++ s) = s := by
    simp only [stripDataUri]
    rw [if_pos (isPrefixOf_append_self _ _), drop_len_append]
  exact ⟨h, by rw [h]⟩

/-- Claim C6: round trip — a successful upload returns the hex digest of
the canonical bytes and stores them under digest dot extension; getting
that filename from the resulting store answers 200 with exactly the
canonical bytes and the server's fixed content type.  The store passed to
getStep is the state in which the upload's write has completed; the
temporal gap the missing await opens is treated with claim C1. -/
theorem upload_get_round_trip (cfg : Config) (nrm : List Nat → Option (List Nat))
    (st : Store) (d : List Char) (canon : List Nat)
    (hd : ¬ d = [])
    (hsz : ¬ (bufferFromBase64 (stripDataUri d)).length > MAX_FILE_SIZE)
    (hc : nrm (bufferFromBase64 (stripDataUri d)) = some canon) :
    uploadStep cfg nrm st (UploadBody.json (some d)) =
      (okHashResp (sha256hex canon),
       updateStore st ((sha256hex canon).toList ++ '.' :: cfg.ext) canon) ∧
    getStep cfg (updateStore st ((sha256hex canon).toList ++ '.' :: cfg.ext) canon)
        ((sha256hex canon).toList ++ '.' :: cfg.ext) =
      (imageResp canon cfg.contentType, true) := by
  refine ⟨uploadStep_success cfg nrm st d canon hd hsz hc, ?_⟩
  rw [getStep_valid_key cfg _ _ (sha256hex_toList_ne canon) (sha256hex_all_hex canon),
    updateStore_same]

/-- Witness for claim C6, uploading the three bytes of QUJD with the
identity transform, then reading the digest filename back. -/
theorem upload_get_round_trip_check :
    (¬ ("QUJD").toList = []) ∧
    (¬ (bufferFromBase64 (stripDataUri (("QUJD").toList))).length > MAX_FILE_SIZE) ∧
    ((fun b => some b) (bufferFromBase64 (stripDataUri (("QUJD").toList))) = some [65, 66, 67]) ∧
    (uploadStep avifConfig (fun b => some b) emptyStore (UploadBody.json (some (("QUJD").toList))) =
      (okHashResp (sha256hex [65, 66, 67]),
       updateStore emptyStore ((sha256hex [65, 66, 67]).toList ++ '.' :: avifConfig.ext) [65, 66, 67]) ∧
     getStep avifConfig
        (updateStore emptyStore ((sha256hex [65, 66, 67]).toList ++ '.' :: avifConfig.ext) [65, 66, 67])
        ((sha256hex [65, 66, 67]).toList ++ '.' :: avifConfig.ext) =
      (imageResp [65, 66, 67] avifConfig.contentType, true)) :=
  ⟨by decide, by decide, by decide,
   upload_get_round_trip avifConfig (fun b => some b) emptyStore (("QUJD").toList) [65, 66, 67]
     (by decide) (by decide) (by decide)⟩

/-- Claim C7: two uploads whose payloads canonicalize to the same bytes —
whatever their wrapping — both return the hex digest of those bytes, and
running the second upload on the store the first one left behind returns
the same hash and leaves that store observably unchanged: at most one
stored object per distinct blob. -/
theorem dedup_idempotent (cfg : Config) (nrm : List Nat → Option (List Nat))
    (st : Store) (d1 d2 : List Char) (canon : List Nat)
    (hd1 : ¬ d1 = []) (hd2 : ¬ d2 = [])
    (hsz1 : ¬ (bufferFromBase64 (stripDataUri d1)).length > MAX_FILE_SIZE)
    (hsz2 : ¬ (bufferFromBase64 (stripDataUri d2)).length > MAX_FILE_SIZE)
    (hc1 : nrm (bufferFromBase64 (stripDataUri d1)) = some canon)
    (hc2 : nrm (bufferFromBase64 (stripDataUri d2)) = some canon) :
    uploadStep cfg nrm st (UploadBody.json (some d1)) =
      (okHashResp (sha256hex canon),
       updateStore st ((sha256hex canon).toList ++ '.' :: cfg.ext) canon) ∧
    uploadStep cfg nrm (updateStore st ((sha256hex canon).toList ++ '.' :: cfg.ext) canon)
        (UploadBody.json (some d2)) =
      (okHashResp (sha256hex canon),
       updateStore st ((sha256hex canon).toList ++ '.' :: cfg.ext) canon) := by
  refine ⟨uploadStep_success cfg nrm st d1 canon hd1 hsz1 hc1, ?_⟩
  rw [uploadStep_success cfg nrm _ d2 canon hd2 hsz2 hc2, updateStore_idem]

/-- Witness for claim C7: the same three bytes uploaded bare and wrapped in
the png data URI header. -/
theorem dedup_idempotent_check :
    (¬ ("QUJD").toList = []) ∧
    (¬ ("data:image/png;base64,QUJD").toList = []) ∧
    (¬ (bufferFromBase64 (stripDataUri (("QUJD").toList))).length > MAX_FILE_SIZE) ∧
    (¬ (bufferFromBase64 (stripDataUri (("data:image/png;base64,QUJD").toList))).length >
        MAX_FILE_SIZE) ∧
    ((fun b => some b) (bufferFromBase64 (stripDataUri (("QUJD").toList))) = some [65, 66, 67]) ∧
    ((fun b => some b) (bufferFromBase64 (stripDataUri (("data:image/png;base64,QUJD").toList))) =
        some [65, 66, 67]) ∧
    (uploadStep avifConfig (fun b => some b) emptyStore (UploadBody.json (some (("QUJD").toList))) =
      (okHashResp (sha256hex [65, 66, 67]),
       updateStore emptyStore ((sha256hex [65, 66, 67]).toList ++ '.' :: avifConfig.ext) [65, 66, 67]) ∧
     uploadStep avifConfig (fun b => some b)
        (updateStore emptyStore ((sha256hex [65, 66, 67]).toList ++ '.' :: avifConfig.ext) [65, 66, 67])
        (UploadBody.json (some (("data:image/png;base64,QUJD").toList))) =
      (okHashResp (sha256hex [65, 66, 67]),
       updateStore emptyStore ((sha256hex [65, 66, 67]).toList ++ '.' :: avifConfig.ext) [65, 66, 67])) :=
  ⟨by decide, by decide, by decide, by decide, by decide, by decide,
   dedup_idempotent avifConfig (fun b => some b) emptyStore (("QUJD").toList)
     (("data:image/png;base64,QUJD").toList) [65, 66, 67]
     (by decide) (by decide) (by decide) (by decide) (by decide) (by decide)⟩

/-- Claim C8: a key that passes format validation but has no stored object
is answered, after the attempted read, by the constant 404 not-found
response — a status distinct from the 400 of the invalid-key error — and
nothing beyond the fixed not-found text reaches the caller. -/
theorem get_unknown_digest (cfg : Config) (st : Store) (file : List Char)
    (hv : matchFilename cfg.ext file = true)
    (habsent : st (file.take (file.length - cfg.ext.length - 1) ++ '.' :: cfg.ext) = none) :
    getStep cfg st file = (notFoundResp, true) ∧
    notFoundResp.status = 404 ∧ invalidUrlResp.status = 400 := by
  refine ⟨?_, rfl, rfl⟩
  simp only [getStep]
  rw [if_pos hv, habsent]

/-- Witness for claim C8, at a valid filename over the empty store. -/
theorem get_unknown_digest_check :
    matchFilename avifConfig.ext (("ab12.avif").toList) = true ∧
    emptyStore ((("ab12.avif").toList).take
        ((("ab12.avif").toList).length - avifConfig.ext.length - 1) ++ '.' :: avifConfig.ext) = none ∧
    (getStep avifConfig emptyStore (("ab12.avif").toList) = (notFoundResp, true) ∧
     notFoundResp.status = 404 ∧ invalidUrlResp.status = 400) :=
  ⟨by decide, rfl, get_unknown_digest avifConfig emptyStore (("ab12.avif").toList) (by decide) rfl⟩

/-- Claim C9: every upload request either succeeds with a 200 response or
is answered with a 400 client error while the store is left exactly as it
was — a missing data field, an oversize payload, a failed conversion and a
malformed body are all resolved inside the one request, and the handler is
a total function, so no failure escalates beyond it. -/
theorem upload_failure_atomic (cfg : Config) (nrm : List Nat → Option (List Nat))
    (st : Store) (body : UploadBody) :
    (uploadStep cfg nrm st body).1.status = 200 ∨
    ((uploadStep cfg nrm st body).1.status = 400 ∧ (uploadStep cfg nrm st body).2 = st) := by
  cases body with
  | malformed => exact Or.inr ⟨rfl, rfl⟩
  | json data =>
    cases data with
    | none => exact Or.inr ⟨rfl, rfl⟩
    | some d =>
      simp only [uploadStep]
      by_cases hd : d = []
      · rw [if_pos hd]
        exact Or.inr ⟨rfl, rfl⟩
      · rw [if_neg hd]
        simp only [uploadAfterDecode]
        by_cases hsz : (bufferFromBase64 (stripDataUri d)).length > MAX_FILE_SIZE
        · rw [if_pos hsz]
          exact Or.inr ⟨rfl, rfl⟩
        · rw [if_neg hsz]
          cases hnc : nrm (bufferFromBase64 (stripDataUri d)) with
          | none => exact Or.inr ⟨rfl, rfl⟩
          | some outBuffer => exact Or.inl rfl

/-- Claim C10: the validator does not require 64 hex characters — any
nonempty lowercase hex run before the extension passes format validation,
and the handler proceeds to the filesystem lookup, answering 404 when the
path is absent. -/
theorem short_hex_key_lookup (cfg : Config) (st : Store) (p : List Char)
    (hne : p ≠ []) (hhex : p.all isLowerHexChar = true)
    (habsent : st (p ++ '.' :: cfg.ext) = none) :
    matchFilename cfg.ext (p ++ '.' :: cfg.ext) = true ∧
    getStep cfg st (p ++ '.' :: cfg.ext) = (notFoundResp, true) := by
  refine ⟨(matchFilename_iff cfg.ext _).2 ⟨p, hne, hhex, rfl⟩, ?_⟩
  rw [getStep_valid_key cfg st p hne hhex, habsent]

/-- Witness for claim C10: the single-character key a dot png on the PNG
variant, far shorter than any issued digest. -/
theorem short_hex_key_lookup_check :
    (['a'] : List Char) ≠ [] ∧
    (['a'] : List Char).all isLowerHexChar = true ∧
    emptyStore (['a'] ++ '.' :: pngConfig.ext) = none ∧
    (matchFilename pngConfig.ext (['a'] ++ '.' :: pngConfig.ext) = true ∧
     getStep pngConfig emptyStore (['a'] ++ '.' :: pngConfig.ext) = (notFoundResp, true)) :=
  ⟨by decide, by decide, rfl,
   short_hex_key_lookup pngConfig emptyStore ['a'] (by decide) (by decide) rfl⟩

end ImageStore
